import Mathlib

/-!
Shallow embedding of the itinerary PDF compiler in `src/app.py`
(`generate_pdf`, `create_stop_table`), together with proofs about the
line-oriented section state machine, the stop buffer, and the composed
block sequence.

Python string primitives (`strip`, `replace`, `startswith`, `in`,
`split(":", 1)`, `split("\n")`) are embedded as executable character-list
functions below.  ReportLab flowables are embedded as the tagged `Block`
type: a `Paragraph` with the title / header / day / body style becomes
`title` / `sectionHeader` / `dayHeading` / `paragraph`, the `<hr/>`
paragraph becomes `rule`, `Table` of timeline data becomes
`timelineTable`, the `KeepTogether` stop table becomes `stopPanel`, and
`Spacer` / `PageBreak` become `spacer` / `pageBreak`.  Image bytes are
embedded as `String`; the network fetch (`fetch_image`) is an external
collaborator and is passed in as a parameter `fetch_image : String →
Option String`, as are the ambient globals `destination`.
-/

namespace LuxeTravel

/-- Embedding of Python `str.strip()`: drop whitespace from both ends. -/
def pyStrip (s : String) : String :=
  ⟨((s.data.dropWhile Char.isWhitespace).reverse.dropWhile Char.isWhitespace).reverse⟩

/-- Does `pat` occur as a contiguous run inside `s`? -/
def subOccurs (pat : List Char) : List Char → Bool
  | [] => pat.isPrefixOf []
  | c :: rest => pat.isPrefixOf (c :: rest) || subOccurs pat rest

/-- Embedding of Python `pat in s` (substring containment). -/
def strContains (s pat : String) : Bool :=
  subOccurs pat.data s.data

/-- Embedding of Python `s.startswith(pre)`. -/
def pyStartsWith (s pre : String) : Bool :=
  pre.data.isPrefixOf s.data

/-- Fuel-driven replace-all on character lists (the fuel is an upper bound
on the number of characters consumed, so `length s` always suffices). -/
def replFuel (pat rep : List Char) : Nat → List Char → List Char
  | _, [] => []
  | 0, s => s
  | fuel + 1, c :: rest =>
    if pat.isPrefixOf (c :: rest) then
      rep ++ replFuel pat rep fuel (List.drop pat.length (c :: rest))
    else
      c :: replFuel pat rep fuel rest

/-- Embedding of Python `s.replace(pat, rep)` (replaces every occurrence;
the empty pattern never arises in the program). -/
def pyReplace (s pat rep : String) : String :=
  if pat.data = [] then s else ⟨replFuel pat.data rep.data s.data.length s.data⟩

/-- Scan for the first `':'`; return the characters before it (accumulated
in reverse) and after it.  Embeds Python `s.split(":", 1)`. -/
def splitFirstAux : List Char → List Char → Option (List Char × List Char)
  | [], _ => none
  | c :: rest, acc => if c = ':' then some (acc.reverse, rest) else splitFirstAux rest (c :: acc)

/-- Embedding of Python `s.split("\n")`. -/
def splitLinesAux : List Char → List Char → List String
  | [], acc => [⟨acc.reverse⟩]
  | c :: rest, acc =>
    if c = '\n' then (⟨acc.reverse⟩ : String) :: splitLinesAux rest [] else splitLinesAux rest (c :: acc)

/-- Split a raw text into its lines, as `text_content.split('\n')` does. -/
def pySplitNl (s : String) : List String :=
  splitLinesAux s.data []

/-- The section state machine of `generate_pdf`:
`section_state` ranges over `"NORMAL"`, `"TIMELINE"`, `"ITINERARY"`. -/
inductive Sec where
  | normal
  | timeline
  | itinerary
deriving DecidableEq, Repr

/-- The four section-marker kinds detected by the first `if`/`elif` chain
of the loop body (app.py lines 244-274). -/
inductive Marker where
  | tStart
  | tEnd
  | iStart
  | iEnd
deriving DecidableEq, Repr

/-- Marker detection, in the exact order of the code's containment checks:
`TIMELINE_START`, `TIMELINE_END`, `ITINERARY_START`, `ITINERARY_END`. -/
def classify (line : String) : Option Marker :=
  if strContains line "TIMELINE_START" then some .tStart
  else if strContains line "TIMELINE_END" then some .tEnd
  else if strContains line "ITINERARY_START" then some .iStart
  else if strContains line "ITINERARY_END" then some .iEnd
  else none

/-- One element of the text column built by `create_stop_table`
(app.py lines 176-189), one constructor per branch of its loop. -/
inductive StopItem where
  | nameLine (place : String)
  | bestTimeLine (txt : String)
  | logisticsLine (txt : String)
  | foodSpacer
  | foodHeader
  | bodyLine (txt : String)
deriving DecidableEq, Repr

/-- A composed document block (the elements appended to `story`). -/
inductive Block where
  | title (txt : String)
  | sectionHeader (txt : String)
  | paragraph (txt : String)
  | dayHeading (txt : String)
  | rule
  | timelineTable (rows : List (List String))
  | stopPanel (details : List StopItem) (image : Option String)
  | pageBreak
  | spacer
deriving DecidableEq, Repr

/-- The line-parsing loop of `create_stop_table`: threading the running
`place_name` (initially `""`, overwritten at each `STOP:` line) and
collecting the text-column items in order. -/
def stop_details : String → List String → String × List StopItem
  | pname, [] => (pname, [])
  | pname, line :: rest =>
    if pyStartsWith line "STOP:" then
      let p := pyStrip (pyReplace line "STOP:" "")
      let r := stop_details p rest
      (r.1, .nameLine p :: r.2)
    else if pyStartsWith line "BEST TIME:" then
      let r := stop_details pname rest
      (r.1, .bestTimeLine (pyReplace line "BEST TIME:" "") :: r.2)
    else if pyStartsWith line "LOGISTICS:" then
      let r := stop_details pname rest
      (r.1, .logisticsLine (pyReplace line "LOGISTICS:" "") :: r.2)
    else if pyStartsWith line "FOOD:" then
      let r := stop_details pname rest
      (r.1, .foodSpacer :: .foodHeader :: r.2)
    else
      let r := stop_details pname rest
      (r.1, .bodyLine line :: r.2)

/-- Embedding of `create_stop_table(story, lines, ...)`: parse the buffered
lines, fetch the image for `f"{destination} {place_name}"`, and append the
kept-together panel followed by a spacer to the story. -/
def create_stop_table (fetch_image : String → Option String) (destination : String)
    (story : List Block) (lines : List String) : List Block :=
  let pd := stop_details "" lines
  let img := fetch_image (destination ++ " " ++ pd.1)
  story ++ [Block.stopPanel pd.2 img, Block.spacer]

/-- The mutable state of the `generate_pdf` loop. -/
structure PState where
  currentDay : String
  stopBuffer : List String
  timelineData : List (List String)
  sectionState : Sec
  story : List Block
deriving DecidableEq, Repr

/-- The four marker branches of the loop body (each ends in `continue`). -/
def markerStep (fetch_image : String → Option String) (destination : String)
    (st : PState) : Marker → PState
  | .tStart =>
    { st with sectionState := .timeline,
              story := st.story ++ [.sectionHeader "Trip at a Glance", .spacer] }
  | .tEnd =>
    { st with sectionState := .normal,
              story := st.story ++ [.timelineTable st.timelineData, .pageBreak] }
  | .iStart =>
    { st with sectionState := .itinerary,
              story := st.story ++ [.sectionHeader "Detailed Visual Guide"] }
  | .iEnd =>
    { st with sectionState := .normal,
              story := if st.stopBuffer = [] then st.story
                       else create_stop_table fetch_image destination st.story st.stopBuffer }

/-- Per-state handling of a non-marker, non-empty, already-stripped line
(app.py lines 278-312). -/
def contentStep (fetch_image : String → Option String) (destination : String)
    (st : PState) (line : String) : PState :=
  match st.sectionState with
  | .timeline =>
    if strContains line ":" then
      match splitFirstAux line.data [] with
      | some (a, b) =>
        { st with timelineData := st.timelineData ++ [[pyStrip ⟨a⟩, pyStrip ⟨b⟩]] }
      | none => st
    else st
  | .itinerary =>
    if pyStartsWith line "Day" then
      { st with currentDay := line,
                story := st.story ++ [.dayHeading line, .rule] }
    else if pyStartsWith line "STOP:" then
      { st with story := if st.stopBuffer = [] then st.story
                         else create_stop_table fetch_image destination st.story st.stopBuffer,
                stopBuffer := [line] }
    else
      if st.stopBuffer = [] then st
      else { st with stopBuffer := st.stopBuffer ++ [line] }
  | .normal =>
    if strContains line "TITLE:" then
      { st with story := st.story ++ [.title (pyStrip (pyReplace line "TITLE:" ""))] }
    else if strContains line "OVERVIEW:" then
      { st with story := st.story ++ [.sectionHeader "Trip Overview"] }
    else if strContains line "GETTING_THERE:" then
      { st with story := st.story ++ [.spacer, .sectionHeader ("How to Reach " ++ destination)] }
    else if strContains line "TRAVEL_TIPS:" then
      { st with story := st.story ++ [.pageBreak, .sectionHeader "Travel Tips"] }
    else
      { st with story := st.story ++ [.paragraph line] }

/-- One iteration of the `for line in lines` loop: strip, skip empty,
detect markers, then dispatch on the section state. -/
def processLine (fetch_image : String → Option String) (destination : String)
    (st : PState) (rawLine : String) : PState :=
  let line := pyStrip rawLine
  if line = "" then st
  else
    match classify line with
    | some m => markerStep fetch_image destination st m
    | none => contentStep fetch_image destination st line

/-- Folding the loop body over a list of raw lines. -/
def runLines (fetch_image : String → Option String) (destination : String)
    (st : PState) (lines : List String) : PState :=
  lines.foldl (processLine fetch_image destination) st

/-- The loop's initial state (app.py lines 233-237): empty buffer, the
timeline header row pre-seeded, state `"NORMAL"`, empty story. -/
def initState : PState :=
  { currentDay := ""
    stopBuffer := []
    timelineData := [["Day", "Summary"]]
    sectionState := .normal
    story := [] }

/-- Embedding of `generate_pdf(text_content)`: split on newlines and run
the loop.  The code performs no end-of-stream step after the loop (it
directly builds the document from `story`), so the result is exactly the
final loop state. -/
def generate_pdf (fetch_image : String → Option String) (destination : String)
    (text_content : String) : PState :=
  runLines fetch_image destination initState (pySplitNl text_content)

/-- The section a marker line switches into. -/
def stateOf : Marker → Sec
  | .tStart => .timeline
  | .tEnd => .normal
  | .iStart => .itinerary
  | .iEnd => .normal

/-- The section state after a sequence of markers, starting from `s`. -/
def stateAfter (s : Sec) : List Marker → Sec
  | [] => s
  | m :: ms => stateAfter (stateOf m) ms

/-- The markers of an input stream, in order (stripping mirrors the loop;
empty lines carry no marker). -/
def markersOf (lines : List String) : List Marker :=
  lines.filterMap (fun l => classify (pyStrip l))

/-- A marker sequence is balanced when it is a concatenation of complete
`TIMELINE_START`/`TIMELINE_END` and `ITINERARY_START`/`ITINERARY_END`
pairs. -/
def balancedB : List Marker → Bool
  | [] => true
  | .tStart :: .tEnd :: ms => balancedB ms
  | .iStart :: .iEnd :: ms => balancedB ms
  | _ => false

/-- The timeline rows contributed by one stripped `TIMELINE` content line. -/
def rowsOfLine (line : String) : List (List String) :=
  if strContains line ":" then
    match splitFirstAux line.data [] with
    | some (a, b) => [[pyStrip ⟨a⟩, pyStrip ⟨b⟩]]
    | none => []
  else []

/-- The timeline rows contributed by a list of raw `TIMELINE` lines. -/
def timelineRowsOf : List String → List (List String)
  | [] => []
  | l :: rest => rowsOfLine (pyStrip l) ++ timelineRowsOf rest

/-- Erase the resolved image of a stop panel (identity on other blocks). -/
def stripImage : Block → Block
  | .stopPanel details _ => .stopPanel details none
  | b => b

/-- The loop state with all panel images erased. -/
def stripState (st : PState) : PState :=
  { st with story := st.story.map stripImage }

/-- Is this block a cosmetic spacer (not part of the spec-level block
vocabulary)? -/
def isSpacer : Block → Bool
  | .spacer => true
  | _ => false

/-- Is this block a stop panel? -/
def isPanel : Block → Bool
  | .stopPanel _ _ => true
  | _ => false

/-- The spec-level composed block sequence: the story without spacers. -/
def specBlocksOf (st : PState) : List Block :=
  st.story.filter (fun b => !isSpacer b)

/-- The stop panels of a story, in order. -/
def panelsOf (story : List Block) : List Block :=
  story.filter isPanel

/-- The timeline tables of a story, in order. -/
def tablesOf (story : List Block) : List (List (List String)) :=
  story.filterMap (fun b => match b with | .timelineTable rows => some rows | _ => none)

/-- The stripped non-empty lines of a raw line list (what the itinerary
content branch appends to an open stop buffer). -/
def contentLinesOf (lines : List String) : List String :=
  lines.filterMap (fun l => if pyStrip l = "" then none else some (pyStrip l))

/-- A marker sequence is balanced when it concatenates complete
`TIMELINE_START`/`TIMELINE_END` and `ITINERARY_START`/`ITINERARY_END`
pairs (sections do not nest). -/
inductive Balanced : List Marker → Prop where
  | nil : Balanced []
  | timeline {ms : List Marker} : Balanced ms → Balanced (.tStart :: .tEnd :: ms)
  | itinerary {ms : List Marker} : Balanced ms → Balanced (.iStart :: .iEnd :: ms)

/-- An image resolver that never finds an image. -/
def noImage : String → Option String := fun _ => none

/-- A two-day itinerary stream in which a stop is still open when the
second day marker arrives. -/
def c1Input : List String :=
  ["ITINERARY_START", "Day 1: A", "STOP: X", "Day 2: B", "STOP: Y", "ITINERARY_END"]

/-- A stream that ends while a stop is buffered (no `ITINERARY_END`). -/
def c2Input : List String :=
  ["ITINERARY_START", "STOP: X", "BEST TIME: 1"]

/-- A stream with two `ITINERARY_END` flush triggers after one stop. -/
def c3Input : List String :=
  ["ITINERARY_START", "STOP: X", "ITINERARY_END", "ITINERARY_END"]

/-- The end-to-end scenario input of the spec. -/
def c4Input : String :=
  "TITLE: Paris Trip\nOVERVIEW: Great city\nTIMELINE_START\nDay 1: Arrival\nTIMELINE_END\nITINERARY_START\nDay 1: Arrival Day\nSTOP: Eiffel Tower\nBEST TIME: 9 AM\nITINERARY_END\nTRAVEL_TIPS:\nBring a coat"

/-- The block sequence the claim asserts for `c4Input`: title, overview
header, timeline table, page break, section header, day heading with
rule, one stop panel, page break, travel-tips header, paragraph — and
nothing else. -/
def c4ClaimedBlocks : List Block :=
  [.title "Paris Trip",
   .sectionHeader "Trip Overview",
   .timelineTable [["Day", "Summary"], ["Day 1", "Arrival"]],
   .pageBreak,
   .sectionHeader "Detailed Visual Guide",
   .dayHeading "Day 1: Arrival Day",
   .rule,
   .stopPanel [.nameLine "Eiffel Tower", .bestTimeLine " 9 AM"] none,
   .pageBreak,
   .sectionHeader "Travel Tips",
   .paragraph "Bring a coat"]

/-- The block sequence the code actually composes for `c4Input`
(spacers filtered out): as claimed, except that the `TIMELINE_START`
marker additionally emits the section header `"Trip at a Glance"`
between the overview header and the timeline table. -/
def c4ActualBlocks : List Block :=
  [.title "Paris Trip",
   .sectionHeader "Trip Overview",
   .sectionHeader "Trip at a Glance",
   .timelineTable [["Day", "Summary"], ["Day 1", "Arrival"]],
   .pageBreak,
   .sectionHeader "Detailed Visual Guide",
   .dayHeading "Day 1: Arrival Day",
   .rule,
   .stopPanel [.nameLine "Eiffel Tower", .bestTimeLine " 9 AM"] none,
   .pageBreak,
   .sectionHeader "Travel Tips",
   .paragraph "Bring a coat"]

/- ------------------------------------------------------------------ -/
/- Helper lemmas about the loop                                       -/
/- ------------------------------------------------------------------ -/

theorem runLines_nil (f : String → Option String) (d : String) (st : PState) :
    runLines f d st [] = st := rfl

theorem runLines_cons (f : String → Option String) (d : String) (st : PState)
    (l : String) (rest : List String) :
    runLines f d st (l :: rest) = runLines f d (processLine f d st l) rest := rfl

theorem runLines_append (f : String → Option String) (d : String) (st : PState)
    (xs ys : List String) :
    runLines f d st (xs ++ ys) = runLines f d (runLines f d st xs) ys := by
  simp [runLines, List.foldl_append]

theorem classify_empty : classify "" = none := rfl

theorem processLine_empty (f : String → Option String) (d : String) (st : PState)
    (raw : String) (h : pyStrip raw = "") :
    processLine f d st raw = st := by
  simp [processLine, h]

theorem classify_some_ne_empty {raw : String} {m : Marker}
    (h : classify (pyStrip raw) = some m) : pyStrip raw ≠ "" := by
  intro he
  rw [he, classify_empty] at h
  exact Option.noConfusion h

theorem processLine_marker (f : String → Option String) (d : String) (st : PState)
    (raw : String) (m : Marker) (h : classify (pyStrip raw) = some m) :
    processLine f d st raw = markerStep f d st m := by
  have hne := classify_some_ne_empty h
  simp [processLine, hne, h]

theorem processLine_content (f : String → Option String) (d : String) (st : PState)
    (raw : String) (h : classify (pyStrip raw) = none) (hne : pyStrip raw ≠ "") :
    processLine f d st raw = contentStep f d st (pyStrip raw) := by
  simp [processLine, hne, h]

theorem markerStep_sectionState (f : String → Option String) (d : String)
    (st : PState) (m : Marker) :
    (markerStep f d st m).sectionState = stateOf m := by
  cases m <;> rfl

theorem contentStep_sectionState (f : String → Option String) (d : String)
    (st : PState) (line : String) :
    (contentStep f d st line).sectionState = st.sectionState := by
  obtain ⟨cd, sb, td, ss, sy⟩ := st
  cases ss <;> dsimp [contentStep] <;> repeat' first | split | rfl

theorem run_sectionState (f : String → Option String) (d : String) :
    ∀ (lines : List String) (st : PState),
      (runLines f d st lines).sectionState = stateAfter st.sectionState (markersOf lines) := by
  intro lines
  induction lines with
  | nil => intro st; rfl
  | cons l rest ih =>
    intro st
    rw [runLines_cons]
    by_cases he : pyStrip l = ""
    · rw [processLine_empty f d st l he, ih st]
      have hcl : classify (pyStrip l) = none := by rw [he]; exact classify_empty
      simp [markersOf, hcl]
    · cases hm : classify (pyStrip l) with
      | none =>
        rw [processLine_content f d st l hm he, ih _, contentStep_sectionState]
        simp [markersOf, hm]
      | some m =>
        rw [processLine_marker f d st l m hm, ih _, markerStep_sectionState]
        simp [markersOf, hm, stateAfter]

theorem stateAfter_balanced {ms : List Marker} (h : Balanced ms) :
    stateAfter .normal ms = .normal := by
  induction h with
  | nil => rfl
  | timeline _ ih => simpa [stateAfter, stateOf] using ih
  | itinerary _ ih => simpa [stateAfter, stateOf] using ih

theorem startsWith_STOP_not_Day {s : String} (h : pyStartsWith s "STOP:" = true) :
    pyStartsWith s "Day" = false := by
  unfold pyStartsWith at h ⊢
  cases hd : s.data with
  | nil => rw [hd] at h; exact absurd h (by decide)
  | cons c cs =>
    rw [hd] at h
    simp only [show ("STOP:").data = ['S', 'T', 'O', 'P', ':'] from rfl,
      show ("Day").data = ['D', 'a', 'y'] from rfl, List.isPrefixOf,
      Bool.and_eq_true, beq_iff_eq] at h
    obtain ⟨h1, -⟩ := h
    rw [← h1]
    simp [show ("Day").data = ['D', 'a', 'y'] from rfl, List.isPrefixOf,
      show ('D' == 'S') = false from by decide]

theorem subOccurs_of_mem {c : Char} : ∀ {l : List Char}, c ∈ l → subOccurs [c] l = true := by
  intro l hmem
  induction l with
  | nil => cases hmem
  | cons x xs ih =>
    rcases List.mem_cons.mp hmem with hx | hxs
    · subst hx
      simp [subOccurs, List.isPrefixOf]
    · simp [subOccurs, ih hxs]

theorem splitFirstAux_isSome : ∀ (l acc : List Char),
    subOccurs [':'] l = true → (splitFirstAux l acc).isSome = true := by
  intro l
  induction l with
  | nil => intro acc h; exact absurd h (by decide)
  | cons c rest ih =>
    intro acc h
    by_cases hc : c = ':'
    · simp [splitFirstAux, hc]
    · have hrest : subOccurs [':'] rest = true := by
        simp only [subOccurs, List.isPrefixOf, Bool.and_eq_true, Bool.or_eq_true, beq_iff_eq] at h
        rcases h with ⟨h1, _⟩ | h2
        · exact absurd h1.symm hc
        · exact h2
      simpa [splitFirstAux, hc] using ih (c :: acc) hrest

theorem splitFirstAux_spec : ∀ (l acc a b : List Char), splitFirstAux l acc = some (a, b) →
    ∃ pre, a = acc.reverse ++ pre ∧ l = pre ++ ':' :: b ∧ ':' ∉ pre := by
  intro l
  induction l with
  | nil => intro acc a b h; exact absurd h (by simp [splitFirstAux])
  | cons c rest ih =>
    intro acc a b h
    by_cases hc : c = ':'
    · rw [splitFirstAux, if_pos hc] at h
      obtain ⟨ha, hb⟩ := Prod.mk.injEq .. ▸ Option.some.injEq .. ▸ h
      refine ⟨[], by simp [ha.symm], by simp [hc, hb], by simp⟩
    · rw [splitFirstAux, if_neg hc] at h
      obtain ⟨pre, hpa, hpl, hpn⟩ := ih (c :: acc) a b h
      refine ⟨c :: pre, ?_, by simp [hpl], ?_⟩
      · simpa [List.append_assoc] using hpa
      · simp only [List.mem_cons, not_or]
        exact ⟨fun hcc => hc hcc.symm, hpn⟩

theorem splitFirstAux_colon : ∀ {l a b : List Char}, splitFirstAux l [] = some (a, b) →
    subOccurs [':'] l = true := by
  intro l a b h
  obtain ⟨pre, -, hl, -⟩ := splitFirstAux_spec l [] a b h
  exact subOccurs_of_mem (by simp [hl])

theorem contentStep_timeline_nocolon (f : String → Option String) (d : String)
    (st : PState) (line : String) (hs : st.sectionState = .timeline)
    (hc : strContains line ":" = false) :
    contentStep f d st line = st := by
  unfold contentStep
  rw [hs]
  simp [hc]

theorem contentStep_timeline_split (f : String → Option String) (d : String)
    (st : PState) (line : String) (a b : List Char) (hs : st.sectionState = .timeline)
    (hsp : splitFirstAux line.data [] = some (a, b)) :
    contentStep f d st line =
      { st with timelineData := st.timelineData ++ [[pyStrip ⟨a⟩, pyStrip ⟨b⟩]] } := by
  have hc : strContains line ":" = true := splitFirstAux_colon hsp
  unfold contentStep
  rw [hs]
  simp [hc, hsp]

theorem contentStep_itinerary_day (f : String → Option String) (d : String)
    (st : PState) (line : String) (hs : st.sectionState = .itinerary)
    (hday : pyStartsWith line "Day" = true) :
    contentStep f d st line =
      { st with currentDay := line, story := st.story ++ [.dayHeading line, .rule] } := by
  unfold contentStep
  rw [hs]
  simp [hday]

theorem contentStep_itinerary_stop (f : String → Option String) (d : String)
    (st : PState) (line : String) (hs : st.sectionState = .itinerary)
    (hstop : pyStartsWith line "STOP:" = true) :
    contentStep f d st line =
      { st with story := if st.stopBuffer = [] then st.story
                         else create_stop_table f d st.story st.stopBuffer,
                stopBuffer := [line] } := by
  have hnd := startsWith_STOP_not_Day hstop
  unfold contentStep
  rw [hs]
  simp [hnd, hstop]

theorem contentStep_itinerary_other (f : String → Option String) (d : String)
    (st : PState) (line : String) (hs : st.sectionState = .itinerary)
    (hnd : pyStartsWith line "Day" = false) (hns : pyStartsWith line "STOP:" = false) :
    contentStep f d st line =
      (if st.stopBuffer = [] then st else { st with stopBuffer := st.stopBuffer ++ [line] }) := by
  unfold contentStep
  rw [hs]
  simp [hnd, hns]

theorem run_itinerary_content (f : String → Option String) (d : String) :
    ∀ (rest : List String) (st : PState),
      st.sectionState = .itinerary → st.stopBuffer ≠ [] →
      (∀ l ∈ rest, classify (pyStrip l) = none ∧ pyStartsWith (pyStrip l) "Day" = false ∧
        pyStartsWith (pyStrip l) "STOP:" = false) →
      runLines f d st rest = { st with stopBuffer := st.stopBuffer ++ contentLinesOf rest } := by
  intro rest
  induction rest with
  | nil =>
    intro st _ _ _
    obtain ⟨cd, sb, td, ss, sy⟩ := st
    simp [runLines, contentLinesOf]
  | cons l rest ih =>
    intro st hs hb hall
    have htl : ∀ x ∈ rest, classify (pyStrip x) = none ∧ pyStartsWith (pyStrip x) "Day" = false ∧
        pyStartsWith (pyStrip x) "STOP:" = false :=
      fun x hx => hall x (List.mem_cons_of_mem l hx)
    rw [runLines_cons]
    by_cases he : pyStrip l = ""
    · rw [processLine_empty f d st l he, ih st hs hb htl]
      simp [contentLinesOf, List.filterMap_cons, he]
    · obtain ⟨hcl, hnd, hns⟩ := hall l (List.mem_cons_self l rest)
      rw [processLine_content f d st l hcl he,
          contentStep_itinerary_other f d st (pyStrip l) hs hnd hns, if_neg hb]
      rw [ih { st with stopBuffer := st.stopBuffer ++ [pyStrip l] } hs (by simp) htl]
      obtain ⟨cd, sb, td, ss, sy⟩ := st
      simp [contentLinesOf, List.filterMap_cons, he]

theorem run_timeline_content (f : String → Option String) (d : String) :
    ∀ (A : List String) (st : PState),
      st.sectionState = .timeline →
      (∀ l ∈ A, classify (pyStrip l) = none) →
      runLines f d st A = { st with timelineData := st.timelineData ++ timelineRowsOf A } := by
  intro A
  induction A with
  | nil =>
    intro st _ _
    obtain ⟨cd, sb, td, ss, sy⟩ := st
    simp [runLines, timelineRowsOf]
  | cons l rest ih =>
    intro st hs hall
    have htl : ∀ x ∈ rest, classify (pyStrip x) = none :=
      fun x hx => hall x (List.mem_cons_of_mem l hx)
    rw [runLines_cons]
    by_cases he : pyStrip l = ""
    · rw [processLine_empty f d st l he, ih st hs htl]
      have hr : rowsOfLine (pyStrip l) = [] := by rw [he]; rfl
      simp [timelineRowsOf, hr]
    · have hcl := hall l (List.mem_cons_self l rest)
      rw [processLine_content f d st l hcl he]
      by_cases hc : strContains (pyStrip l) ":" = true
      · have hsome := splitFirstAux_isSome (pyStrip l).data [] hc
        cases hsp : splitFirstAux (pyStrip l).data [] with
        | none => rw [hsp] at hsome; exact absurd hsome (by decide)
        | some ab =>
          obtain ⟨a, b⟩ := ab
          rw [contentStep_timeline_split f d st (pyStrip l) a b hs hsp]
          rw [ih { st with timelineData := st.timelineData ++ [[pyStrip ⟨a⟩, pyStrip ⟨b⟩]] } hs htl]
          have hr : rowsOfLine (pyStrip l) = [[pyStrip ⟨a⟩, pyStrip ⟨b⟩]] := by
            simp [rowsOfLine, hc, hsp]
          obtain ⟨cd, sb, td, ss, sy⟩ := st
          simp [timelineRowsOf, hr]
      · have hc2 : strContains (pyStrip l) ":" = false := by
          cases hval : strContains (pyStrip l) ":"
          · rfl
          · exact absurd hval hc
        rw [contentStep_timeline_nocolon f d st (pyStrip l) hs hc2, ih st hs htl]
        have hr : rowsOfLine (pyStrip l) = [] := by simp [rowsOfLine, hc2]
        simp [timelineRowsOf, hr]

theorem run_timeline_section (f : String → Option String) (d : String)
    (A : List String) (st : PState)
    (hA : ∀ l ∈ A, classify (pyStrip l) = none) :
    runLines f d st ("TIMELINE_START" :: A ++ ["TIMELINE_END"]) =
      { st with sectionState := .normal,
                timelineData := st.timelineData ++ timelineRowsOf A,
                story := st.story ++ [.sectionHeader "Trip at a Glance", .spacer,
                  .timelineTable (st.timelineData ++ timelineRowsOf A), .pageBreak] } := by
  rw [List.cons_append, runLines_cons,
      processLine_marker f d st "TIMELINE_START" .tStart (by decide),
      runLines_append, run_timeline_content f d A (markerStep f d st .tStart) rfl hA,
      runLines_cons, runLines_nil, processLine_marker f d _ "TIMELINE_END" .tEnd (by decide)]
  obtain ⟨cd, sb, td, ss, sy⟩ := st
  simp [markerStep, List.append_assoc]

theorem stop_details_ne_nil : ∀ (p : String) (buf : List String), buf ≠ [] →
    (stop_details p buf).2 ≠ [] := by
  intro p buf hb
  cases buf with
  | nil => exact absurd rfl hb
  | cons l rest =>
    rw [stop_details]
    split
    · simp
    · split
      · simp
      · split
        · simp
        · split <;> simp

theorem create_stop_table_strip (f : String → Option String) (d : String)
    (sy : List Block) (buf : List String) :
    (create_stop_table f d sy buf).map stripImage =
      sy.map stripImage ++ [.stopPanel (stop_details "" buf).2 none, .spacer] := by
  simp [create_stop_table, stripImage]

theorem strip_processLine (f g : String → Option String) (d : String)
    (st1 st2 : PState) (l : String) (h : stripState st1 = stripState st2) :
    stripState (processLine f d st1 l) = stripState (processLine g d st2 l) := by
  obtain ⟨cd1, sb1, td1, ss1, sy1⟩ := st1
  obtain ⟨cd2, sb2, td2, ss2, sy2⟩ := st2
  have hcd : cd1 = cd2 := congrArg PState.currentDay h
  have hsb : sb1 = sb2 := congrArg PState.stopBuffer h
  have htd : td1 = td2 := congrArg PState.timelineData h
  have hss : ss1 = ss2 := congrArg PState.sectionState h
  have hsy : sy1.map stripImage = sy2.map stripImage := congrArg PState.story h
  subst hcd
  subst hsb
  subst htd
  subst hss
  by_cases he : pyStrip l = ""
  · rw [processLine_empty f d _ l he, processLine_empty g d _ l he]
    exact h
  · cases hm : classify (pyStrip l) with
    | some m =>
      rw [processLine_marker f d _ l m hm, processLine_marker g d _ l m hm]
      cases m with
      | tStart => simp [markerStep, stripState, List.map_append, stripImage, hsy]
      | tEnd => simp [markerStep, stripState, List.map_append, stripImage, hsy]
      | iStart => simp [markerStep, stripState, List.map_append, stripImage, hsy]
      | iEnd =>
        simp only [markerStep, stripState]
        split <;> simp [create_stop_table_strip, hsy]
    | none =>
      rw [processLine_content f d _ l hm he, processLine_content g d _ l hm he]
      cases ss1 with
      | timeline =>
        dsimp only [contentStep]
        split
        · split
          · simp [stripState, hsy]
          · simp [stripState, hsy]
        · simp [stripState, hsy]
      | itinerary =>
        dsimp only [contentStep]
        split
        · simp [stripState, List.map_append, stripImage, hsy]
        · split
          · split
            · simp [stripState, hsy]
            · simp [stripState, create_stop_table_strip, hsy]
          · split
            · simp [stripState, hsy]
            · simp [stripState, hsy]
      | normal =>
        dsimp only [contentStep]
        split <;> try split
        all_goals try split
        all_goals try split
        all_goals simp [stripState, List.map_append, stripImage, hsy]

theorem strip_runLines (f g : String → Option String) (d : String) :
    ∀ (lines : List String) (st1 st2 : PState), stripState st1 = stripState st2 →
      stripState (runLines f d st1 lines) = stripState (runLines g d st2 lines) := by
  intro lines
  induction lines with
  | nil => intro st1 st2 h; exact h
  | cons l rest ih =>
    intro st1 st2 h
    rw [runLines_cons, runLines_cons]
    exact ih _ _ (strip_processLine f g d st1 st2 l h)

theorem panels_pred_step (f : String → Option String) (d : String)
    (P : List StopItem → Option String → Prop)
    (hP : ∀ buf : List String, buf ≠ [] →
      P (stop_details "" buf).2 (f (d ++ " " ++ (stop_details "" buf).1)))
    (st : PState) (l : String)
    (hst : ∀ dts img, Block.stopPanel dts img ∈ st.story → P dts img) :
    ∀ dts img, Block.stopPanel dts img ∈ (processLine f d st l).story → P dts img := by
  intro dts img hmem
  by_cases he : pyStrip l = ""
  · rw [processLine_empty f d st l he] at hmem
    exact hst dts img hmem
  · cases hm : classify (pyStrip l) with
    | some m =>
      rw [processLine_marker f d st l m hm] at hmem
      cases m with
      | tStart =>
        rcases List.mem_append.mp hmem with hold | hnew
        · exact hst dts img hold
        · simp at hnew
      | tEnd =>
        rcases List.mem_append.mp hmem with hold | hnew
        · exact hst dts img hold
        · simp at hnew
      | iStart =>
        rcases List.mem_append.mp hmem with hold | hnew
        · exact hst dts img hold
        · simp at hnew
      | iEnd =>
        by_cases hb : st.stopBuffer = []
        · simp only [markerStep, hb, if_pos] at hmem
          exact hst dts img hmem
        · simp only [markerStep, if_neg hb, create_stop_table] at hmem
          rcases List.mem_append.mp hmem with hold | hnew
          · exact hst dts img hold
          · simp at hnew
            obtain ⟨h1, h2⟩ := hnew
            subst h1
            subst h2
            exact hP st.stopBuffer hb
    | none =>
      rw [processLine_content f d st l hm he] at hmem
      obtain ⟨cd, sb, td, ss, sy⟩ := st
      cases ss with
      | timeline =>
        dsimp only [contentStep] at hmem
        split at hmem
        · split at hmem
          · exact hst dts img hmem
          · exact hst dts img hmem
        · exact hst dts img hmem
      | itinerary =>
        dsimp only [contentStep] at hmem
        split at hmem
        · rcases List.mem_append.mp hmem with hold | hnew
          · exact hst dts img hold
          · simp at hnew
        · split at hmem
          · by_cases hb : sb = []
            · rw [if_pos hb] at hmem
              exact hst dts img hmem
            · rw [if_neg hb] at hmem
              simp only [create_stop_table] at hmem
              rcases List.mem_append.mp hmem with hold | hnew
              · exact hst dts img hold
              · simp at hnew
                obtain ⟨h1, h2⟩ := hnew
                subst h1
                subst h2
                exact hP sb hb
          · split at hmem
            · exact hst dts img hmem
            · exact hst dts img hmem
      | normal =>
        dsimp only [contentStep] at hmem
        split at hmem
        · rcases List.mem_append.mp hmem with hold | hnew
          · exact hst dts img hold
          · simp at hnew
        · split at hmem
          · rcases List.mem_append.mp hmem with hold | hnew
            · exact hst dts img hold
            · simp at hnew
          · split at hmem
            · rcases List.mem_append.mp hmem with hold | hnew
              · exact hst dts img hold
              · simp at hnew
            · split at hmem
              · rcases List.mem_append.mp hmem with hold | hnew
                · exact hst dts img hold
                · simp at hnew
              · rcases List.mem_append.mp hmem with hold | hnew
                · exact hst dts img hold
                · simp at hnew

theorem panels_pred_run (f : String → Option String) (d : String)
    (P : List StopItem → Option String → Prop)
    (hP : ∀ buf : List String, buf ≠ [] →
      P (stop_details "" buf).2 (f (d ++ " " ++ (stop_details "" buf).1))) :
    ∀ (lines : List String) (st : PState),
      (∀ dts img, Block.stopPanel dts img ∈ st.story → P dts img) →
      ∀ dts img, Block.stopPanel dts img ∈ (runLines f d st lines).story → P dts img := by
  intro lines
  induction lines with
  | nil => intro st hst; exact hst
  | cons l rest ih =>
    intro st hst
    rw [runLines_cons]
    exact ih _ (panels_pred_step f d P hP st l hst)

/- ------------------------------------------------------------------ -/
/- Claims                                                             -/
/- ------------------------------------------------------------------ -/

/-- C5: for any input stream whose `TIMELINE_START`/`TIMELINE_END` and
`ITINERARY_START`/`ITINERARY_END` markers are balanced, the parser's
section state is back to the code's `"NORMAL"` (the spec's `GENERAL`)
when the stream ends. -/
theorem c5_balanced_final_state (f : String → Option String) (d text : String)
    (h : Balanced (markersOf (pySplitNl text))) :
    (generate_pdf f d text).sectionState = .normal := by
  have hr := run_sectionState f d (pySplitNl text) initState
  rw [generate_pdf, hr]
  exact stateAfter_balanced h

/-- C1 (code evaluated at the failing input): a `Day` marker line does
not flush the open stop.  For `c1Input` the stop panel for `X` — the only
stop of Day 1 — is emitted after the `"Day 2: B"` heading (it is flushed
only at the next `STOP:` line), so a stop panel of a previous day appears
after a later day's heading and the block span of Day 1 holds no panel. -/
theorem c1_day_marker_does_not_flush :
    (runLines noImage "Paris" initState c1Input).story =
      [.sectionHeader "Detailed Visual Guide",
       .dayHeading "Day 1: A", .rule,
       .dayHeading "Day 2: B", .rule,
       .stopPanel [.nameLine "X"] none, .spacer,
       .stopPanel [.nameLine "Y"] none, .spacer] := by
  decide

/-- C2 (counterexample): for the concrete stream `c2Input`, which ends
while a stop is still buffered, the final state still holds the buffered
lines and the composed document contains no stop panel at all — the
buffered stop is not flushed at end-of-stream. -/
theorem c2_counterexample :
    (runLines noImage "Paris" initState c2Input).stopBuffer ≠ [] ∧
    panelsOf (runLines noImage "Paris" initState c2Input).story = [] := by
  decide

/-- C2 (amended): when the stream ends while a stop is buffered, the
buffered stop is NOT flushed: for any itinerary stream opening a stop and
then ending in plain stop-content lines, the composed story is just the
section header — no panel — and the buffered lines survive unrendered. -/
theorem c2_eos_stop_unflushed (f : String → Option String) (d : String)
    (stopLine : String) (rest : List String)
    (hcl : classify (pyStrip stopLine) = none)
    (hst : pyStartsWith (pyStrip stopLine) "STOP:" = true)
    (hrest : ∀ l ∈ rest, classify (pyStrip l) = none ∧
      pyStartsWith (pyStrip l) "Day" = false ∧ pyStartsWith (pyStrip l) "STOP:" = false) :
    (runLines f d initState ("ITINERARY_START" :: stopLine :: rest)).story =
      [.sectionHeader "Detailed Visual Guide"] ∧
    (runLines f d initState ("ITINERARY_START" :: stopLine :: rest)).stopBuffer =
      pyStrip stopLine :: contentLinesOf rest := by
  have hne : pyStrip stopLine ≠ "" := fun he => absurd (he ▸ hst) (by decide)
  have hpre : runLines f d initState ("ITINERARY_START" :: stopLine :: rest) =
      runLines f d (⟨"", [pyStrip stopLine], [["Day", "Summary"]], .itinerary,
        [.sectionHeader "Detailed Visual Guide"]⟩ : PState) rest := by
    rw [runLines_cons, processLine_marker f d initState "ITINERARY_START" .iStart (by decide)]
    rw [show markerStep f d initState .iStart =
        (⟨"", [], [["Day", "Summary"]], .itinerary,
          [.sectionHeader "Detailed Visual Guide"]⟩ : PState) from rfl]
    rw [runLines_cons,
        processLine_content f d (⟨"", [], [["Day", "Summary"]], .itinerary,
          [.sectionHeader "Detailed Visual Guide"]⟩ : PState) stopLine hcl hne,
        contentStep_itinerary_stop f d (⟨"", [], [["Day", "Summary"]], .itinerary,
          [.sectionHeader "Detailed Visual Guide"]⟩ : PState) (pyStrip stopLine) rfl hst]
    rfl
  rw [hpre, run_itinerary_content f d rest
      (⟨"", [pyStrip stopLine], [["Day", "Summary"]], .itinerary,
        [.sectionHeader "Detailed Visual Guide"]⟩ : PState) rfl (by simp) hrest]
  exact ⟨rfl, rfl⟩

theorem c2_eos_stop_unflushed_witness :
    (runLines noImage "Paris" initState ["ITINERARY_START", "STOP: X", "BEST TIME: 1"]).story =
      [.sectionHeader "Detailed Visual Guide"] ∧
    (runLines noImage "Paris" initState ["ITINERARY_START", "STOP: X", "BEST TIME: 1"]).stopBuffer =
      ["STOP: X", "BEST TIME: 1"] := by
  have h := c2_eos_stop_unflushed noImage "Paris" "STOP: X" ["BEST TIME: 1"]
    (by decide) (by decide) (by decide)
  exact ⟨h.1, h.2.trans (by decide)⟩

/-- C3 (counterexample): on `c3Input` the single stop `X` is flushed by
the first `ITINERARY_END` without the buffer being cleared, so the second
`ITINERARY_END` emits the very same stop's panel a second time. -/
theorem c3_counterexample :
    panelsOf (runLines noImage "Paris" initState c3Input).story =
      [.stopPanel [.nameLine "X"] none, .stopPanel [.nameLine "X"] none] := by
  decide

/-- C3 (amended): only the flush triggered by a `STOP:` line clears the
buffer (replacing it with the new `STOP:` line); the flush at
`ITINERARY_END` leaves the buffer unchanged, and a day marker triggers no
flush at all (it only emits the heading and rule). -/
theorem c3_flush_clears_only_stop_branch (f : String → Option String) (d : String)
    (st : PState) (l : String) :
    (st.sectionState = .itinerary → classify (pyStrip l) = none →
      pyStartsWith (pyStrip l) "STOP:" = true →
      (processLine f d st l).stopBuffer = [pyStrip l]) ∧
    (classify (pyStrip l) = some .iEnd →
      (processLine f d st l).stopBuffer = st.stopBuffer) ∧
    (st.sectionState = .itinerary → classify (pyStrip l) = none →
      pyStartsWith (pyStrip l) "Day" = true →
      processLine f d st l =
        { st with currentDay := pyStrip l,
                  story := st.story ++ [.dayHeading (pyStrip l), .rule] }) := by
  refine ⟨?_, ?_, ?_⟩
  · intro hs hcl hstop
    have hne : pyStrip l ≠ "" := fun he => absurd (he ▸ hstop) (by decide)
    rw [processLine_content f d st l hcl hne,
        contentStep_itinerary_stop f d st (pyStrip l) hs hstop]
  · intro hm
    rw [processLine_marker f d st l .iEnd hm]
    rfl
  · intro hs hcl hday
    have hne : pyStrip l ≠ "" := fun he => absurd (he ▸ hday) (by decide)
    rw [processLine_content f d st l hcl hne,
        contentStep_itinerary_day f d st (pyStrip l) hs hday]

theorem c3_flush_clears_only_stop_branch_witness :
    (processLine noImage "Paris"
        (⟨"", ["STOP: old"], [["Day", "Summary"]], .itinerary, []⟩ : PState)
        "STOP: new").stopBuffer = ["STOP: new"] ∧
    (processLine noImage "Paris"
        (⟨"", ["STOP: old"], [["Day", "Summary"]], .normal, []⟩ : PState)
        "ITINERARY_END").stopBuffer = ["STOP: old"] := by
  refine ⟨?_, ?_⟩
  · have h := (c3_flush_clears_only_stop_branch noImage "Paris"
      (⟨"", ["STOP: old"], [["Day", "Summary"]], .itinerary, []⟩ : PState) "STOP: new").1
      rfl (by decide) (by decide)
    exact h.trans (by decide)
  · have h := (c3_flush_clears_only_stop_branch noImage "Paris"
      (⟨"", ["STOP: old"], [["Day", "Summary"]], .normal, []⟩ : PState) "ITINERARY_END").2.1
      (by decide)
    exact h.trans (by decide)

/-- C4 (counterexample): on the exact end-to-end input the composed
spec-level block sequence is not the claimed one — the `TIMELINE_START`
marker emits a `"Trip at a Glance"` section header that the claimed
sequence omits. -/
theorem c4_counterexample :
    specBlocksOf (generate_pdf noImage "Paris" c4Input) ≠ c4ClaimedBlocks := by
  decide

/-- C4 (amended): the composed spec-level block sequence for the
end-to-end input is exactly the claimed one with the additional section
header `"Trip at a Glance"` emitted between the `"Trip Overview"` header
and the timeline table. -/
theorem c4_composed_sequence :
    specBlocksOf (generate_pdf noImage "Paris" c4Input) = c4ActualBlocks := by
  decide

theorem c5_balanced_final_state_witness :
    Balanced (markersOf (pySplitNl "TIMELINE_START\nDay 1: x\nTIMELINE_END\nITINERARY_START\nSTOP: a\nITINERARY_END")) ∧
    (generate_pdf noImage "Paris" "TIMELINE_START\nDay 1: x\nTIMELINE_END\nITINERARY_START\nSTOP: a\nITINERARY_END").sectionState = .normal := by
  have hm : markersOf (pySplitNl "TIMELINE_START\nDay 1: x\nTIMELINE_END\nITINERARY_START\nSTOP: a\nITINERARY_END")
      = [.tStart, .tEnd, .iStart, .iEnd] := by decide
  have hb : Balanced (markersOf (pySplitNl "TIMELINE_START\nDay 1: x\nTIMELINE_END\nITINERARY_START\nSTOP: a\nITINERARY_END")) := by
    rw [hm]; exact .timeline (.itinerary .nil)
  exact ⟨hb, c5_balanced_final_state noImage "Paris" _ hb⟩

/-- C6: in the `TIMELINE` section a non-marker line is handled as
follows: without a colon it is ignored (state unchanged, no error); with
a colon it is split at the first colon (the prefix holds no colon and
prefix, colon and suffix reassemble the line), both parts are stripped,
and exactly one row is appended at the end of the timeline data; the
line `"Day 2: Louvre and Seine walk"` yields the row
`("Day 2", "Louvre and Seine walk")`. -/
theorem c6_timeline_first_colon_split (f : String → Option String) (d : String)
    (st : PState) (raw : String)
    (hs : st.sectionState = .timeline)
    (hm : classify (pyStrip raw) = none)
    (hne : pyStrip raw ≠ "") :
    ((strContains (pyStrip raw) ":" = false → processLine f d st raw = st) ∧
     (strContains (pyStrip raw) ":" = true →
       (splitFirstAux (pyStrip raw).data []).isSome = true) ∧
     (∀ a b : List Char, splitFirstAux (pyStrip raw).data [] = some (a, b) →
       (pyStrip raw).data = a ++ ':' :: b ∧ ':' ∉ a ∧
       processLine f d st raw =
         { st with timelineData := st.timelineData ++ [[pyStrip ⟨a⟩, pyStrip ⟨b⟩]] })) ∧
    rowsOfLine "Day 2: Louvre and Seine walk" = [["Day 2", "Louvre and Seine walk"]] := by
  refine ⟨⟨?_, ?_, ?_⟩, by decide⟩
  · intro hc
    rw [processLine_content f d st raw hm hne,
        contentStep_timeline_nocolon f d st (pyStrip raw) hs hc]
  · intro hc
    exact splitFirstAux_isSome (pyStrip raw).data [] hc
  · intro a b hsp
    obtain ⟨pre, hpa, hl, hn⟩ := splitFirstAux_spec (pyStrip raw).data [] a b hsp
    have hpre : a = pre := by simpa using hpa
    subst hpre
    refine ⟨hl, hn, ?_⟩
    rw [processLine_content f d st raw hm hne,
        contentStep_timeline_split f d st (pyStrip raw) a b hs hsp]

theorem c6_timeline_first_colon_split_witness :
    processLine noImage "Paris" (⟨"", [], [["Day", "Summary"]], .timeline, []⟩ : PState)
        "Day 2: Louvre and Seine walk" =
      (⟨"", [], [["Day", "Summary"], ["Day 2", "Louvre and Seine walk"]],
        .timeline, []⟩ : PState) := by
  have h := ((c6_timeline_first_colon_split noImage "Paris"
      (⟨"", [], [["Day", "Summary"]], .timeline, []⟩ : PState)
      "Day 2: Louvre and Seine walk" rfl (by decide) (by decide)).1).2.2
      ("Day 2").data (" Louvre and Seine walk").data (by decide)
  exact h.2.2.trans (by decide)

/-- C7: the composed document is unchanged by image availability except
for the image cell of each stop panel — the story of a run with any
resolver equals, after erasing panel images, the story of the run with
the resolver that never finds an image; the number of blocks is
identical; every stop panel carries a non-empty text column; and with
the never-finding resolver every panel's image column is empty. -/
theorem c7_image_resolver_independence (f : String → Option String) (d text : String) :
    stripState (generate_pdf f d text) = stripState (generate_pdf noImage d text) ∧
    (generate_pdf f d text).story.length = (generate_pdf noImage d text).story.length ∧
    (∀ dts img, Block.stopPanel dts img ∈ (generate_pdf f d text).story → dts ≠ []) ∧
    (∀ dts img, Block.stopPanel dts img ∈ (generate_pdf noImage d text).story →
      img = none) := by
  have h1 : stripState (generate_pdf f d text) = stripState (generate_pdf noImage d text) :=
    strip_runLines f noImage d (pySplitNl text) initState initState rfl
  refine ⟨h1, ?_, ?_, ?_⟩
  · have h2 := congrArg (fun st : PState => st.story.length) h1
    simpa [stripState] using h2
  · exact panels_pred_run f d (fun dts _ => dts ≠ [])
      (fun buf hb => stop_details_ne_nil "" buf hb) (pySplitNl text) initState
      (fun dts img hmem => absurd hmem (by simp [initState]))
  · exact panels_pred_run noImage d (fun _ img => img = none)
      (fun buf hb => rfl) (pySplitNl text) initState
      (fun dts img hmem => absurd hmem (by simp [initState]))

theorem c7_image_resolver_independence_witness :
    Block.stopPanel [StopItem.nameLine "X"] none ∈
      (generate_pdf noImage "P" "ITINERARY_START\nSTOP: X\nITINERARY_END").story ∧
    ([StopItem.nameLine "X"] : List StopItem) ≠ [] := by
  have hmem : Block.stopPanel [StopItem.nameLine "X"] none ∈
      (generate_pdf noImage "P" "ITINERARY_START\nSTOP: X\nITINERARY_END").story := by decide
  exact ⟨hmem, (c7_image_resolver_independence noImage "P"
    "ITINERARY_START\nSTOP: X\nITINERARY_END").2.2.1 [StopItem.nameLine "X"] none hmem⟩

/-- C8: when the stop buffer is empty, every flush trigger is a no-op on
the story: an `ITINERARY_END` line only switches the state (no block),
a `STOP:` line only starts the new buffer (no block), a day marker
emits just its heading and rule (no panel), and two `ITINERARY_END`
triggers in a row still emit nothing — no duplicate block. -/
theorem c8_empty_buffer_flush_noop (f : String → Option String) (d : String)
    (st : PState) (l1 l2 : String) (hb : st.stopBuffer = []) :
    (classify (pyStrip l1) = some .iEnd →
      processLine f d st l1 = { st with sectionState := .normal }) ∧
    (st.sectionState = .itinerary → classify (pyStrip l1) = none →
      pyStartsWith (pyStrip l1) "STOP:" = true →
      processLine f d st l1 = { st with stopBuffer := [pyStrip l1] }) ∧
    (st.sectionState = .itinerary → classify (pyStrip l1) = none →
      pyStartsWith (pyStrip l1) "Day" = true →
      processLine f d st l1 =
        { st with currentDay := pyStrip l1,
                  story := st.story ++ [.dayHeading (pyStrip l1), .rule] }) ∧
    (classify (pyStrip l1) = some .iEnd → classify (pyStrip l2) = some .iEnd →
      runLines f d st [l1, l2] = { st with sectionState := .normal }) := by
  obtain ⟨cd, sb, td, ss, sy⟩ := st
  have hb2 : sb = [] := hb
  subst hb2
  refine ⟨?_, ?_, ?_, ?_⟩
  · intro hm
    rw [processLine_marker f d _ l1 .iEnd hm]
    rfl
  · intro hs hcl hstop
    have hne : pyStrip l1 ≠ "" := fun he => absurd (he ▸ hstop) (by decide)
    rw [processLine_content f d _ l1 hcl hne,
        contentStep_itinerary_stop f d _ (pyStrip l1) hs hstop]
    rfl
  · intro hs hcl hday
    have hne : pyStrip l1 ≠ "" := fun he => absurd (he ▸ hday) (by decide)
    rw [processLine_content f d _ l1 hcl hne,
        contentStep_itinerary_day f d _ (pyStrip l1) hs hday]
  · intro hm1 hm2
    rw [show runLines f d (⟨cd, [], td, ss, sy⟩ : PState) [l1, l2] =
        processLine f d (processLine f d (⟨cd, [], td, ss, sy⟩ : PState) l1) l2 from rfl]
    rw [processLine_marker f d _ l1 .iEnd hm1]
    rw [show markerStep f d (⟨cd, [], td, ss, sy⟩ : PState) .iEnd =
        (⟨cd, [], td, .normal, sy⟩ : PState) from rfl]
    rw [processLine_marker f d _ l2 .iEnd hm2]
    rfl

theorem c8_empty_buffer_flush_noop_witness :
    runLines noImage "Paris" initState ["ITINERARY_END", "ITINERARY_END"] =
      { initState with sectionState := Sec.normal } :=
  (c8_empty_buffer_flush_noop noImage "Paris" initState "ITINERARY_END" "ITINERARY_END"
    rfl).2.2.2 (by decide) (by decide)

/-- C9: marker detection runs before per-state content handling and a
marker takes effect in any state: a line containing `TIMELINE_START`
switches any state to `TIMELINE` without flushing the open stop, and a
line recognized as `ITINERARY_START` switches any state to `ITINERARY`
without emitting the accumulated timeline table (buffer and timeline
data are untouched in both cases). -/
theorem c9_marker_detection_first (f : String → Option String) (d : String)
    (st : PState) (l : String) :
    (strContains (pyStrip l) "TIMELINE_START" = true →
      processLine f d st l =
        { st with sectionState := .timeline,
                  story := st.story ++ [.sectionHeader "Trip at a Glance", .spacer] }) ∧
    (classify (pyStrip l) = some .iStart →
      processLine f d st l =
        { st with sectionState := .itinerary,
                  story := st.story ++ [.sectionHeader "Detailed Visual Guide"] }) := by
  constructor
  · intro hc
    have hcl : classify (pyStrip l) = some .tStart := by simp [classify, hc]
    rw [processLine_marker f d st l .tStart hcl]
    rfl
  · intro hm
    rw [processLine_marker f d st l .iStart hm]
    rfl

theorem c9_marker_detection_first_witness :
    processLine noImage "Paris"
        (⟨"", ["STOP: X"], [["Day", "Summary"]], .itinerary, []⟩ : PState) "TIMELINE_START" =
      (⟨"", ["STOP: X"], [["Day", "Summary"]], .timeline,
        [.sectionHeader "Trip at a Glance", .spacer]⟩ : PState) ∧
    processLine noImage "Paris"
        (⟨"", [], [["Day", "Summary"], ["Day 1", "x"]], .timeline, []⟩ : PState)
        "ITINERARY_START" =
      (⟨"", [], [["Day", "Summary"], ["Day 1", "x"]], .itinerary,
        [.sectionHeader "Detailed Visual Guide"]⟩ : PState) := by
  constructor
  · exact ((c9_marker_detection_first noImage "Paris"
      (⟨"", ["STOP: X"], [["Day", "Summary"]], .itinerary, []⟩ : PState)
      "TIMELINE_START").1 (by decide)).trans (by decide)
  · exact ((c9_marker_detection_first noImage "Paris"
      (⟨"", [], [["Day", "Summary"], ["Day 1", "x"]], .timeline, []⟩ : PState)
      "ITINERARY_START").2 (by decide)).trans (by decide)

/-- C10: the timeline rows are never cleared after rendering — for an
input with two timeline sections, the table emitted at the second
`TIMELINE_END` holds the header row, then all rows of the first section,
then the rows of the second section, so the first section's rows appear
in both rendered tables. -/
theorem c10_timeline_rows_accumulate (f : String → Option String) (d : String)
    (A B : List String)
    (hA : ∀ l ∈ A, classify (pyStrip l) = none)
    (hB : ∀ l ∈ B, classify (pyStrip l) = none) :
    tablesOf ((runLines f d initState
        (("TIMELINE_START" :: A ++ ["TIMELINE_END"]) ++
         ("TIMELINE_START" :: B ++ ["TIMELINE_END"]))).story) =
      [["Day", "Summary"] :: timelineRowsOf A,
       ["Day", "Summary"] :: (timelineRowsOf A ++ timelineRowsOf B)] := by
  rw [runLines_append, run_timeline_section f d A initState hA,
      run_timeline_section f d B _ hB]
  simp [tablesOf, initState, List.append_assoc]

theorem c10_timeline_rows_accumulate_witness :
    tablesOf ((runLines noImage "Paris" initState
        (("TIMELINE_START" :: ["Day 1: a"] ++ ["TIMELINE_END"]) ++
         ("TIMELINE_START" :: ["Day 2: b"] ++ ["TIMELINE_END"]))).story) =
      [[["Day", "Summary"], ["Day 1", "a"]],
       [["Day", "Summary"], ["Day 1", "a"], ["Day 2", "b"]]] :=
  (c10_timeline_rows_accumulate noImage "Paris" ["Day 1: a"] ["Day 2: b"]
    (by decide) (by decide)).trans (by decide)

end LuxeTravel
